import Mathlib

/-!
Verification development for the wrap2025 repository.

The Python sources (`call_wrapped.py`, `combined_wrapped.py`,
`people_wrapped.py`, `localbrief.py`) are shallowly embedded below.
Modelling conventions, used uniformly:

* Python strings are `String`; `re.sub(r'\D', '', s)` is `digitsOf`.
* Python dicts (and `defaultdict`s) are insertion-ordered association
  lists `List (K × V)`; assignment that replaces an existing key keeps
  its position (`setAssoc`), assignment of a fresh key appends.
  Python `set` iteration order is modelled as first-insertion order.
* Python floats are modelled by `ℚ` (the arithmetic exercised here is
  exact at every comparison the program makes); `round` is Python's
  banker's rounding, `pyRound`.
* Unix timestamps are `Int` seconds.  `datetime.fromtimestamp` uses the
  local timezone; we model a fixed UTC clock, so an hour is
  `(ts % 86400) / 3600`, a calendar day is the epoch-day number
  `ts / 86400` (standing in for the `'%Y-%m-%d'` string, which is in
  bijection with it), a weekday and a month come from the standard
  civil-calendar computation.
* `datetime.now()` is passed in explicitly as a `now : Int` parameter.
* Rows already fetched from sqlite are received as lists of row
  structures; the SQL `WHERE`/`ORDER BY` clauses are performed by the
  database and are therefore part of the input, not of the embedding.
-/

namespace Wrap

/-- Insertion-ordered update of an association list: if the key is
present its value is rewritten in place, otherwise the pair is appended
(Python `d[k] = f(d.get(k, d0))` on an insertion-ordered dict). -/
def updAssoc {K V : Type} [DecidableEq K] (k : K) (f : V → V) (d0 : V) :
    List (K × V) → List (K × V)
  | [] => [(k, f d0)]
  | (k', v) :: rest =>
    if k = k' then (k', f v) :: rest else (k', v) :: updAssoc k f d0 rest

/-- Insertion-ordered assignment `d[k] = v` on an association list. -/
def setAssoc {K V : Type} [DecidableEq K] (k : K) (v : V) :
    List (K × V) → List (K × V)
  | [] => [(k, v)]
  | (k', v') :: rest =>
    if k = k' then (k', v) :: rest else (k', v') :: setAssoc k v rest

/-- Lookup in an association list (Python `d.get(k)`). -/
def getAssoc {K V : Type} [DecidableEq K] (k : K) :
    List (K × V) → Option V
  | [] => none
  | (k', v) :: rest => if k = k' then some v else getAssoc k rest

/-- Python `max(l, key=key)` for a nonempty list: the first element of
maximal key in iteration order (`none` on the empty list). -/
def maxBy {α β : Type} [LinearOrder β] (key : α → β) (l : List α) :
    Option α :=
  l.foldl (fun acc x =>
    match acc with
    | none => some x
    | some a => if key a < key x then some x else some a) none

/-- Python's `round` (banker's rounding, half to even) on a rational. -/
def pyRound (q : ℚ) : ℤ :=
  let f : ℤ := ⌊q⌋
  let r : ℚ := q - f
  if r < 1/2 then f
  else if 1/2 < r then f + 1
  else if f % 2 = 0 then f else f + 1

/-- Python `re.sub(r'\D', '', s)`: keep only the digits of a string. -/
def digitsOf (s : String) : String :=
  String.mk (s.data.filter Char.isDigit)

/-- Python `s[-n:]` (for `n > 0`): the last `n` characters, or the whole
string when it is shorter. -/
def lastN (n : Nat) (s : String) : String :=
  String.mk (s.data.drop (s.data.length - n))

/-- Python `s[a:b]` on nonnegative bounds. -/
def slice (a b : Nat) (s : String) : String :=
  String.mk ((s.data.take b).drop a)

/-- Python `s[n:]`. -/
def dropN (n : Nat) (s : String) : String :=
  String.mk (s.data.drop n)

/-- Python `s.strip()` (both-ends whitespace strip), modelled over the
character list. -/
def pyStrip (s : String) : String :=
  String.mk
    (((s.data.dropWhile Char.isWhitespace).reverse.dropWhile
      Char.isWhitespace).reverse)

/-- Python `s.lower()`, modelled characterwise. -/
def pyLower (s : String) : String :=
  String.mk (s.data.map Char.toLower)

/-- Python `s.startswith(p)` for a one-character prefix. -/
def startsWith1 (c : Char) (s : String) : Bool :=
  s.data.head? = some c

/-- Python `s.split(sep)[0]`: the prefix before the first separator. -/
def splitHead (sep : Char) (s : String) : String :=
  String.mk (s.data.takeWhile (· ≠ sep))

/-- The toll-free prefixes excluded by every resolver. -/
def tollFreeCodes : List String :=
  ["800", "888", "877", "866", "855", "844", "833"]

/-- Python `digits[-10:-7]`: the 3 digits at positions `[-10:-7]`. -/
def tollSlice (ds : String) : String :=
  String.mk (((ds.data.drop (ds.data.length - 10)).take 3))

namespace CallWrapped

/-- Embeds `call_wrapped.normalize_phone`: normalize a phone number to its last
10 digits (`none` models Python `None`; an absent argument is the empty
string, which is falsy like `None`). -/
def normalize_phone (phone : String) : Option String :=
  if phone = "" then none
  else
    let digits := digitsOf phone
    if digits.length = 11 ∧ startsWith1 '1' digits then
      let digits := dropN 1 digits
      if digits.length ≥ 10 then some (lastN 10 digits)
      else if digits.length ≥ 7 then some digits else none
    else if digits.length > 10 then some (lastN 10 digits)
    else
      if digits.length ≥ 10 then some (lastN 10 digits)
      else if digits.length ≥ 7 then some digits else none

/-- The canonical keys `call_wrapped.extract_contacts` (lines 94-102)
files one directory phone number under: the full digit string, the
last-10 and last-7 suffixes when long enough, and the leading-1-stripped
form for 11-digit numbers starting with 1; nothing when the digit string
is empty. -/
def extract_contact_keys (phone : String) : List String :=
  let digits := digitsOf phone
  if digits = "" then []
  else
    [digits]
      ++ (if digits.length ≥ 10 then [lastN 10 digits] else [])
      ++ (if digits.length ≥ 7 then [lastN 7 digits] else [])
      ++ (if digits.length = 11 ∧ startsWith1 '1' digits
          then [dropN 1 digits] else [])

/-- Embeds `call_wrapped.get_name`: resolve a phone number to a contact name
through the directory, excluding short codes and toll-free numbers. -/
def get_name (phone : Option String) (contacts : List (String × String)) :
    Option String :=
  match phone with
  | none => none
  | some s =>
    if s = "" then none
    else
      let digits := digitsOf s
      if 5 ≤ digits.length ∧ digits.length ≤ 6 then none
      else if digits.length ≥ 10 ∧ tollSlice digits ∈ tollFreeCodes then none
      else
        match getAssoc digits contacts with
        | some n => some n
        | none =>
          match
            (if digits.length = 11 ∧ startsWith1 '1' digits then
              getAssoc (dropN 1 digits) contacts
            else none) with
          | some n => some n
          | none =>
            match
              (if digits.length ≥ 10 then
                getAssoc (lastN 10 digits) contacts
              else none) with
            | some n => some n
            | none =>
              if digits.length ≥ 7 then
                getAssoc (lastN 7 digits) contacts
              else none

end CallWrapped

namespace CombinedWrapped

/-- Embeds `combined_wrapped.normalize_phone`: unlike the `call_wrapped`
variant, a digit string longer than 10 that is not an 11-digit
leading-1 number is returned whole. -/
def normalize_phone (phone : String) : Option String :=
  if phone = "" then none
  else
    let digits := digitsOf phone
    if digits.length = 11 ∧ startsWith1 '1' digits then
      let digits := dropN 1 digits
      if digits.length ≥ 10 then some (lastN 10 digits)
      else if digits.length ≥ 7 then some digits else none
    else if digits.length > 10 then some digits
    else
      if digits.length ≥ 10 then some (lastN 10 digits)
      else if digits.length ≥ 7 then some digits else none

/-- Embeds `combined_wrapped.get_name_whatsapp`: resolve a WhatsApp JID to a
display name; falls back to a grouped, formatted rendering of the phone
number and never returns null. -/
def get_name_whatsapp (jid : Option String)
    (contacts : List (String × String)) : String :=
  match jid with
  | none => "Unknown"
  | some j =>
    if j = "" then "Unknown"
    else
      match getAssoc j contacts with
      | some n => n
      | none =>
        if j.data.contains '@' then
          let phone := splitHead '@' j
          if phone.length = 10 then
            "(" ++ slice 0 3 phone ++ ") " ++ slice 3 6 phone ++ "-"
              ++ dropN 6 phone
          else if phone.length = 11 ∧ startsWith1 '1' phone then
            "+1 (" ++ slice 1 4 phone ++ ") " ++ slice 4 7 phone ++ "-"
              ++ dropN 7 phone
          else "+" ++ phone
        else j

end CombinedWrapped

namespace PeopleWrapped

/-- Embeds `people_wrapped.normalize_phone` (textually identical to the
`combined_wrapped` variant). -/
def normalize_phone (phone : String) : Option String :=
  if phone = "" then none
  else
    let digits := digitsOf phone
    if digits.length = 11 ∧ startsWith1 '1' digits then
      let digits := dropN 1 digits
      if digits.length ≥ 10 then some (lastN 10 digits)
      else if digits.length ≥ 7 then some digits else none
    else if digits.length > 10 then some digits
    else
      if digits.length ≥ 10 then some (lastN 10 digits)
      else if digits.length ≥ 7 then some digits else none

end PeopleWrapped

namespace LocalBrief

/-- Embeds `localbrief.resolve_contact`: resolve a phone/email identifier to a
contact name, preferring a WhatsApp push name; returns null when no
directory tier matches a phone. -/
def resolve_contact (identifier : Option String)
    (contacts : List (String × String)) (whatsapp_name : Option String) :
    Option String :=
  match identifier with
  | none => none
  | some idf =>
    if idf = "" then none
    else
      match whatsapp_name with
      | some w =>
        if w ≠ "" ∧ pyStrip w ≠ "" then some (pyStrip w)
        else resolveDir idf contacts
      | none => resolveDir idf contacts
where
  /-- The directory part of `resolve_contact` (everything after the
  push-name check). -/
  resolveDir (idf : String) (contacts : List (String × String)) :
      Option String :=
    let ident := pyStrip idf
    if ident.data.contains '@' then
      match getAssoc (pyLower ident) contacts with
      | some n => some n
      | none =>
        let username := splitHead '@' ident
        if username.data.any Char.isAlpha then some username else none
    else
      let cleaned := digitsOf ident
      if 5 ≤ cleaned.length ∧ cleaned.length ≤ 6 then none
      else if cleaned.length ≥ 10 ∧ tollSlice cleaned ∈ tollFreeCodes then
        none
      else
        match
          (if cleaned.length ≥ 10 then
            getAssoc (lastN 10 cleaned) contacts
          else none) with
        | some n => some n
        | none =>
          if cleaned.length ≥ 7 then getAssoc (lastN 7 cleaned) contacts
          else none

end LocalBrief

namespace CallWrapped

/-- The Mac-epoch offset added to every database timestamp. -/
def MAC_EPOCH : Int := 978307200

/-- One normalized call event, as built by the two extraction loops
(the dicts appended to `calls`). -/
structure Call where
  name : String
  phone : Option String
  duration : ℚ
  timestamp : Int
  outgoing : Bool
  answered : Bool
  platform : String
  is_video : Bool
deriving DecidableEq, Repr

/-- Python truthiness of an optional string (`if not name: ...`): both
`None` and the empty string are falsy. -/
def truthyStr (o : Option String) : Option String :=
  match o with
  | some n => if n = "" then none else some n
  | none => none

/-- Version of `normalize_phone` applied to a possibly-absent phone (Python passes
`None` straight in; `None` and `""` are equally falsy). -/
def normalize_phone_opt (phone : Option String) : Option String :=
  match phone with
  | none => none
  | some s => normalize_phone s

/-- One row of the `ZCALLRECORD` query in `analyze_phone_calls`
(`ZADDRESS, ZDURATION, ZDATE, ZORIGINATED, ZANSWERED, ZCALLTYPE`). -/
structure PhoneRow where
  address : Option String
  duration : Option ℚ
  date : Int
  originated : Option Int
  answered : Option Int
  call_type : Option Int
deriving DecidableEq, Repr

/-- Embeds `call_wrapped.analyze_phone_calls`, given the rows the date-filtered
query returned: resolve each row, dropping rows with no name, and build
the call record. -/
def analyze_phone_calls (rows : List PhoneRow)
    (contacts : List (String × String)) : List Call :=
  rows.filterMap fun r =>
    match truthyStr (get_name r.address contacts) with
    | none => none
    | some name =>
      let facetime : Prop := r.call_type = some (8 : Int) ∨ r.call_type = some (16 : Int)
      some
        { name := name
          phone := normalize_phone_opt r.address
          duration := r.duration.getD 0
          timestamp := r.date + MAC_EPOCH
          outgoing := decide (r.originated = some (1 : Int))
          answered := decide (r.answered = some (1 : Int))
          platform := if facetime then "FaceTime" else "Phone"
          is_video := decide (r.call_type = some (16 : Int)) }

/-- One row of the `ZWACDCALLEVENT` join in `analyze_whatsapp_calls`
(`ZDURATION, ZDATE, ZOUTCOME, ZJIDSTRING`). -/
structure WARow where
  duration : Option ℚ
  date : Int
  outcome : Option Int
  jid : Option String
deriving DecidableEq, Repr

/-- Embeds `call_wrapped.analyze_whatsapp_calls`, given the queried rows and
the WhatsApp push-name table: resolve via push name then address book,
dropping unnamed rows; every produced event is outgoing and is answered
exactly when its duration is positive (the table has no direction). -/
def analyze_whatsapp_calls (rows : List WARow)
    (wa_contacts contacts : List (String × String)) : List Call :=
  rows.filterMap fun r =>
    let phone : Option String :=
      match r.jid with
      | none => none
      | some j => if j = "" then none else some (splitHead '@' j)
    let name1 : Option String :=
      match r.jid with
      | none => none
      | some j => getAssoc j wa_contacts
    let name2 : Option String :=
      match truthyStr name1 with
      | some n => some n
      | none =>
        match phone with
        | some p =>
          if p = "" then none
          else truthyStr (get_name (some p) contacts)
        | none => none
    match name2 with
    | none => none
    | some name =>
      some
        { name := name
          phone := normalize_phone_opt phone
          duration := r.duration.getD 0
          timestamp := r.date + MAC_EPOCH
          outgoing := true
          answered := decide (r.duration.getD 0 > (0 : ℚ))
          platform := "WhatsApp"
          is_video := false }

end CallWrapped

namespace CallWrapped

/-- The merged event list: all calls of both platforms, sorted by
timestamp (`all_calls.sort(key=lambda x: x['timestamp'])`; Python's sort
is stable, as is insertion sort). -/
def sortCalls (l : List Call) : List Call :=
  l.insertionSort (fun a b => a.timestamp ≤ b.timestamp)

/-- The hour of a timestamp (`datetime.fromtimestamp(ts).hour`, UTC
model). -/
def hourOf (ts : Int) : Int :=
  ts % 86400 / 3600

/-- The calendar day of a timestamp as an epoch-day number (standing in
for the `'%Y-%m-%d'` key). -/
def dayOf (ts : Int) : Int :=
  ts / 86400

/-- Python `int(datetime.fromtimestamp(ts).strftime('%w'))`: weekday with
Sunday = 0 (day 0, 1970-01-01, was a Thursday). -/
def weekdayW (ts : Int) : Int :=
  (dayOf ts + 4) % 7

/-- Python `datetime.fromtimestamp(ts).weekday()`: weekday with Monday = 0. -/
def weekdayMon (ts : Int) : Int :=
  (dayOf ts + 3) % 7

/-- The civil-calendar month (1-12) of an epoch-day number, standing in
for the `'%b'` month key (standard days-to-civil-date computation). -/
def civilMonth (day : Int) : Int :=
  let z := day + 719468
  let era := z / 146097
  let doe := z - era * 146097
  let yoe := (doe - doe / 1460 + doe / 36524 - doe / 146096) / 365
  let doy := doe - (365 * yoe + yoe / 4 - yoe / 100)
  let mp := (5 * doy + 2) / 153
  if mp < 10 then mp + 3 else mp - 9

/-- The month key of a timestamp. -/
def monthOf (ts : Int) : Int :=
  civilMonth (dayOf ts)

/-- A `defaultdict(int)` counting fold: each element contributing a key
bumps that key's counter. -/
def countFold {α K : Type} [DecidableEq K] (keyOf : α → Option K)
    (l : List α) : List (K × Nat) :=
  l.foldl (fun acc c =>
    match keyOf c with
    | some k => updAssoc k (· + 1) 0 acc
    | none => acc) []

/-- Python `sorted(pairs, key=lambda x: x[1], reverse=True)`. -/
def sortDescSnd (l : List (String × Nat)) : List (String × Nat) :=
  l.insertionSort (fun a b => b.2 ≤ a.2)

/-- Python set insertion modelled on an insertion-ordered list. -/
def addSet {α : Type} [DecidableEq α] (x : α) (l : List α) : List α :=
  if x ∈ l then l else l ++ [x]

/-- Minimum of a list of timestamps (`none` on the empty list). -/
def listMin (l : List Int) : Option Int :=
  l.foldl (fun acc t =>
    match acc with
    | none => some t
    | some m => some (min m t)) none

/-- The per-phone-key running counters of the merge phase
(`phone_stats` values, `names` included). -/
structure PStats where
  count : Nat
  duration : ℚ
  outgoing : Nat
  incoming : Nat
  answered : Nat
  missed : Nat
  platforms : List String
  names : List String
deriving DecidableEq, Repr

/-- A published per-contact profile (`contact_stats` values: `PStats`
after `del stats['names']`). -/
structure CStats where
  count : Nat
  duration : ℚ
  outgoing : Nat
  incoming : Nat
  answered : Nat
  missed : Nat
  platforms : List String
deriving DecidableEq, Repr

/-- The freshly-created counters of `phone_stats[key]`. -/
def emptyPStats : PStats :=
  ⟨0, 0, 0, 0, 0, 0, [], []⟩

/-- One event's increments on a phone-key profile. -/
def bumpPStats (c : Call) (s : PStats) : PStats :=
  { count := s.count + 1
    duration := s.duration + c.duration
    outgoing := s.outgoing + (if c.outgoing then 1 else 0)
    incoming := s.incoming + (if c.outgoing then 0 else 1)
    answered := s.answered + (if c.answered then 1 else 0)
    missed := s.missed + (if c.answered then 0 else 1)
    platforms := addSet c.platform s.platforms
    names := addSet c.name s.names }

/-- The aggregation key of one event: the last 10 digits of its
normalized phone when it has at least 7 digits, else the
`"name:"`-prefixed display name. -/
def phoneKeyOf (c : Call) : String :=
  match c.phone with
  | some p =>
    if p = "" then "name:" ++ c.name
    else
      let digits := digitsOf p
      if digits.length ≥ 7 then lastN 10 digits else "name:" ++ c.name
  | none => "name:" ++ c.name

/-- The merge phase's `phone_stats` map, keyed by `phoneKeyOf`. -/
def phone_stats (all_calls : List Call) : List (String × PStats) :=
  all_calls.foldl
    (fun acc c => updAssoc (phoneKeyOf c) (bumpPStats c) emptyPStats acc) []

/-- Python `max(names, key=len)`: the first longest name in iteration order
(`""` on the empty list, which the program never reaches). -/
def best_name (names : List String) : String :=
  match names with
  | [] => ""
  | n :: rest =>
    rest.foldl (fun a m => if a.length < m.length then m else a) n

/-- Dropping the `names` field when publishing a profile. -/
def toCStats (s : PStats) : CStats :=
  ⟨s.count, s.duration, s.outgoing, s.incoming, s.answered, s.missed,
    s.platforms⟩

/-- The published `contact_stats` map: each phone key's profile is
re-filed under its longest name variant; dict assignment overwrites an
existing entry for the same name. -/
def contact_stats (all_calls : List Call) : List (String × CStats) :=
  (phone_stats all_calls).foldl
    (fun acc p => setAssoc (best_name p.2.names) (toCStats p.2) acc) []

/-- Top 10 contacts by call count. -/
def top_count (all_calls : List Call) : List (String × CStats) :=
  ((contact_stats all_calls).insertionSort
    (fun a b => b.2.count ≤ a.2.count)).take 10

/-- Top 10 contacts by total duration. -/
def top_duration (all_calls : List Call) : List (String × CStats) :=
  ((contact_stats all_calls).insertionSort
    (fun a b => b.2.duration ≤ a.2.duration)).take 10

/-- The per-contact first-half/second-half event counters
(`contact_h1_h2`), keyed by the per-event display name. -/
def contact_h1_h2 (all_calls : List Call) (ts_jun : Int) :
    List (String × (Nat × Nat)) :=
  all_calls.foldl
    (fun acc c =>
      updAssoc c.name
        (fun p => if c.timestamp < ts_jun then (p.1 + 1, p.2) else (p.1, p.2 + 1))
        (0, 0) acc) []

/-- The full heating-up list (before the top-5 cut): contacts with
`h1 >= 3` and `h2 > h1 * 1.5`, sorted by `h2 - h1` descending. -/
def heating_up (all_calls : List Call) (ts_jun : Int) :
    List (String × Nat × Nat) :=
  ((contact_h1_h2 all_calls ts_jun).filterMap fun p =>
      if p.2.1 ≥ 3 ∧ (p.2.2 : ℚ) > (p.2.1 : ℚ) * (3 / 2) then
        some (p.1, p.2.1, p.2.2)
      else none).insertionSort
    (fun a b => (b.2.2 : ℤ) - (b.2.1 : ℤ) ≤ (a.2.2 : ℤ) - (a.2.1 : ℤ))

/-- The full cooling-down list (before the top-5 cut): contacts with
`h1 >= 5` and `h2 < h1 * 0.5`, sorted by `h1 - h2` descending. -/
def cooling_down (all_calls : List Call) (ts_jun : Int) :
    List (String × Nat × Nat) :=
  ((contact_h1_h2 all_calls ts_jun).filterMap fun p =>
      if p.2.1 ≥ 5 ∧ (p.2.2 : ℚ) < (p.2.1 : ℚ) * (1 / 2) then
        some (p.1, p.2.1, p.2.2)
      else none).insertionSort
    (fun a b => (b.2.1 : ℤ) - (b.2.2 : ℤ) ≤ (a.2.1 : ℤ) - (a.2.2 : ℤ))

/-- The `call_times_to` dict: per name, the timestamps of outgoing calls to that
name, in event order. -/
def call_times_to (all_calls : List Call) : List (String × List Int) :=
  all_calls.foldl
    (fun acc c =>
      if c.outgoing then updAssoc c.name (· ++ [c.timestamp]) [] acc
      else acc) []

/-- The `later_calls` list for one missed call: the outgoing timestamps to that
name strictly after it. -/
def later_calls (all_calls : List Call) (name : String) (t : Int) :
    List Int :=
  ((getAssoc name (call_times_to all_calls)).getD []).filter (t < ·)

/-- The ghost counters: for each missed inbound call never followed by
an outgoing call to the same name, bump that name. -/
def ghosts_of (all_calls : List Call) : List (String × Nat) :=
  countFold
    (fun c =>
      if c.outgoing = false ∧ c.answered = false ∧
          later_calls all_calls c.name c.timestamp = [] then
        some c.name
      else none)
    all_calls

/-- The `callback_times` list: for each missed inbound call that was returned,
the minutes until the first outgoing call back, kept when under 24
hours. -/
def callback_times (all_calls : List Call) : List ℚ :=
  all_calls.foldl
    (fun acc c =>
      if c.outgoing = false ∧ c.answered = false then
        match listMin (later_calls all_calls c.name c.timestamp) with
        | some m =>
          let cb : ℚ := ((m - c.timestamp : ℤ) : ℚ) / 60
          if cb < 1440 then acc ++ [cb] else acc
        | none => acc
      else acc) []

/-- Python `sorted(set(dates))` of the days this contact was called on. -/
def person_dates (all_calls : List Call) (name : String) : List Int :=
  ((all_calls.filterMap fun c =>
      if c.name = name then some (dayOf c.timestamp) else none).dedup
    ).insertionSort (· ≤ ·)

/-- The consecutive-day scan of the streak loop: `prev` is the previous
date, `cur` the current run, `best` the best run so far. -/
def maxRunFrom : Int → Nat → Nat → List Int → Nat
  | _, _, best, [] => best
  | prev, cur, best, d :: rest =>
    if d = prev + 1 then maxRunFrom d (cur + 1) (max best (cur + 1)) rest
    else maxRunFrom d 1 best rest

/-- The longest run of consecutive days in a sorted date list. -/
def maxStreak (dates : List Int) : Nat :=
  match dates with
  | [] => 1
  | d :: rest => maxRunFrom d 1 1 rest

/-- The `streaks` map: contacts (iterated in profile order) whose
longest consecutive-day run is at least 3. -/
def streaks_of (all_calls : List Call) : List (String × Nat) :=
  (contact_stats all_calls).foldl
    (fun acc p =>
      let ds := person_dates all_calls p.1
      if ds.length < 2 then acc
      else
        let m := maxStreak ds
        if m ≥ 3 then setAssoc p.1 m acc else acc) []

/-- The `missed_from` counters: per contact, the number of inbound
unanswered calls from them. -/
def missed_from_of (l : List Call) : List (String × Nat) :=
  countFold
    (fun c =>
      if c.answered = false ∧ c.outgoing = false then some c.name else none)
    l

/-- The per-missed-event callback record: for a missed inbound call,
the minutes until the first later outgoing call to the same name, kept
only under the 24-hour window. -/
def callbackOpt (l : List Call) (c : Call) : Option ℚ :=
  if c.outgoing = false ∧ c.answered = false then
    match listMin (later_calls l c.name c.timestamp) with
    | some m =>
      if ((m - c.timestamp : ℤ) : ℚ) / 60 < 1440 then
        some (((m - c.timestamp : ℤ) : ℚ) / 60)
      else none
    | none => none
  else none

/-- The names of the weekdays, indexed by `'%w'`. -/
def dayNames : List String :=
  ["Sunday", "Monday", "Tuesday", "Wednesday", "Thursday", "Friday",
    "Saturday"]

/-- Python `round(x, 1)`. -/
def pyRound1 (q : ℚ) : ℚ :=
  (pyRound (q * 10) : ℚ) / 10

/-- The `d['stats']` block of the report. -/
structure Stats where
  total : Nat
  outgoing : Nat
  incoming : Nat
  answered : Nat
  missed : Nat
  total_duration : ℚ
deriving DecidableEq, Repr

/-- Truthiness test for the `d['avg_callback_time'] and
d['avg_callback_time'] < 10` guard (`None` and `0` are falsy). -/
def responsiveCond (o : Option Int) : Bool :=
  match o with
  | some v => decide (v ≠ 0 ∧ v < 10)
  | none => false

/-- The full result dictionary `d` of `analyze_calls`, one field per
key, in construction order.  Calendar keys (`'%Y-%m-%d'`, `'%b'`) are
carried as epoch-day numbers and month numbers. -/
structure Report where
  stats : Stats
  platforms : List (String × (Nat × ℚ))
  video_voice : Nat × Nat
  top_count : List (String × CStats)
  top_duration : List (String × CStats)
  longest_call : Option Call
  peak_hour : Int
  peak_day : String
  night_owls : List (String × Nat)
  early_birds : List (String × Nat)
  missed_kings : List (String × Nat)
  avoiders : List (String × Nat × Nat)
  speed_dialers : List (String × ℚ × Nat)
  marathon_talkers : List (String × ℚ × Nat)
  daily_counts : List (Int × Nat)
  busiest_day : Option (Int × Nat)
  h1_h2 : Nat × Nat
  heating_up : List (String × Nat × Nat)
  cooling_down : List (String × Nat × Nat)
  monthly_counts : List (Int × Nat)
  monthly_duration : List (Int × ℚ)
  busiest_month : Option Int
  avg_daily : ℚ
  quiet_days : Int
  unique_contacts : Nat
  first_call : Option Call
  biggest_fans : List (String × Nat)
  longest_streak : Option (String × Nat)
  weekday_weekend : Nat × Nat
  duration_buckets : Nat × Nat × Nat
  ghosts : List (String × Nat)
  avg_callback_time : Option Int
  personality : String × String
deriving DecidableEq, Repr

/-- Embeds `call_wrapped.analyze_calls`: combine and analyze all calls.
`now` is what `datetime.now()` returns (used only for
`quiet_days`). -/
def analyze_calls (phone_calls whatsapp_calls : List Call)
    (ts_start ts_end ts_jun now : Int) : Report :=
  let all_calls := sortCalls (phone_calls ++ whatsapp_calls)
  let total_calls := all_calls.length
  let outgoing := all_calls.countP (·.outgoing)
  let incoming := total_calls - outgoing
  let answered := all_calls.countP (·.answered)
  let missed := total_calls - answered
  let total_duration := (all_calls.map (·.duration)).sum
  let platform_stats := all_calls.foldl
    (fun acc c =>
      updAssoc c.platform (fun p => (p.1 + 1, p.2 + c.duration))
        ((0 : Nat), (0 : ℚ)) acc) []
  let video_calls := all_calls.countP (·.is_video)
  let hour_counts := countFold (fun c => some (hourOf c.timestamp)) all_calls
  let day_counts := countFold (fun c => some (weekdayW c.timestamp)) all_calls
  let night_owl_stats := countFold
    (fun c => if hourOf c.timestamp < 5 then some c.name else none) all_calls
  let early_bird_stats := countFold
    (fun c =>
      if 6 ≤ hourOf c.timestamp ∧ hourOf c.timestamp ≤ 9 then some c.name
      else none) all_calls
  let missed_from := missed_from_of all_calls
  let unanswered_to := all_calls.foldl
    (fun acc c =>
      if c.outgoing then
        updAssoc c.name
          (fun p => (p.1 + 1, if c.answered then p.2 + 1 else p.2))
          ((0 : Nat), (0 : Nat)) acc
      else acc) []
  let avoiders_all := unanswered_to.filterMap fun p =>
    if p.2.1 ≥ 5 ∧ ((p.2.1 : ℚ) - (p.2.2 : ℚ)) / (p.2.1 : ℚ) > 1 / 2 then
      some (p.1, p.2.1 - p.2.2, p.2.1)
    else none
  let avg_durations := (contact_stats all_calls).filterMap fun p =>
    if p.2.count ≥ 5 ∧ p.2.duration > 0 then
      some (p.1, p.2.duration / (p.2.count : ℚ), p.2.count)
    else none
  let daily_counts := countFold (fun c => some (dayOf c.timestamp)) all_calls
  let monthly_counts := countFold (fun c => some (monthOf c.timestamp)) all_calls
  let monthly_duration := all_calls.foldl
    (fun acc c => updAssoc (monthOf c.timestamp) (· + c.duration) (0 : ℚ) acc)
    []
  let h1_calls := all_calls.countP (fun c => c.timestamp < ts_jun)
  let h2_calls := all_calls.countP (fun c => ts_jun ≤ c.timestamp)
  let year_end := min ts_end now
  let total_days := (year_end - ts_start) / 86400 + 1
  let inbound_from := countFold
    (fun c => if c.outgoing = false then some c.name else none) all_calls
  let weekday_calls := all_calls.countP (fun c => weekdayMon c.timestamp < 5)
  let weekend_calls := total_calls - weekday_calls
  let quick_calls := all_calls.countP
    (fun c => c.answered ∧ c.duration < 120)
  let normal_calls := all_calls.countP
    (fun c => c.answered ∧ 120 ≤ c.duration ∧ c.duration < 900)
  let long_calls := all_calls.countP
    (fun c => c.answered ∧ 900 ≤ c.duration)
  let cbt := callback_times all_calls
  let avg_callback : Option Int :=
    if cbt = [] then none else some (pyRound (cbt.sum / (cbt.length : ℚ)))
  let answered_calls := all_calls.filter (·.answered)
  let avg_duration : ℚ :=
    (answered_calls.map (·.duration)).sum / (max answered_calls.length 1 : ℚ)
  let outFrac : ℚ := (outgoing : ℚ) / (max total_calls 1 : ℚ)
  let missFrac : ℚ := (missed : ℚ) / (max total_calls 1 : ℚ)
  let personality : String × String :=
    if avg_duration < 60 ∧ total_calls > 200 then
      ("THE SPEED DIALER", "You treat calls like texts - quick, efficient, gone")
    else if avg_duration > 600 ∧ total_calls > 50 then
      ("THE CHATTY CATHY", "Once you\x27re on the phone, you\x27re ON the phone")
    else if missFrac > 2 / 5 then
      ("THE SCREENER", "Your phone is always on silent, isn\x27t it?")
    else if outFrac > 7 / 10 then
      ("THE INITIATOR", "You don\x27t wait for calls, you make them happen")
    else if outFrac < 3 / 10 then
      ("THE POPULAR ONE", "Everyone wants to talk to you")
    else if responsiveCond avg_callback then
      ("THE RESPONSIVE ONE", "Missed call? You\x27ll call back in minutes")
    else if total_calls < 50 then
      ("THE PHONE PHOBIC", "Calls? In this economy? You prefer texts")
    else if (weekend_calls : ℚ) > (weekday_calls : ℚ) * (1 / 2) then
      ("THE WEEKEND WARRIOR", "Your phone comes alive on weekends")
    else
      ("THE BALANCED CALLER", "A healthy relationship with your phone")
  { stats :=
      { total := total_calls, outgoing := outgoing, incoming := incoming,
        answered := answered, missed := missed,
        total_duration := total_duration }
    platforms := platform_stats
    video_voice := (video_calls, total_calls - video_calls)
    top_count := top_count all_calls
    top_duration := top_duration all_calls
    longest_call := maxBy (·.duration) all_calls
    peak_hour :=
      match maxBy (·.2) hour_counts with
      | some p => p.1
      | none => 12
    peak_day :=
      match maxBy (·.2) day_counts with
      | some p => dayNames.getD p.1.toNat "Unknown"
      | none => "Unknown"
    night_owls := (sortDescSnd night_owl_stats).take 5
    early_birds := (sortDescSnd early_bird_stats).take 5
    missed_kings := (sortDescSnd missed_from).take 5
    avoiders := (avoiders_all.insertionSort (fun a b => b.2.1 ≤ a.2.1)).take 5
    speed_dialers :=
      (avg_durations.insertionSort (fun a b => a.2.1 ≤ b.2.1)).take 5
    marathon_talkers :=
      (avg_durations.insertionSort (fun a b => b.2.1 ≤ a.2.1)).take 5
    daily_counts := daily_counts
    busiest_day := maxBy (·.2) daily_counts
    h1_h2 := (h1_calls, h2_calls)
    heating_up := (heating_up all_calls ts_jun).take 5
    cooling_down := (cooling_down all_calls ts_jun).take 5
    monthly_counts := monthly_counts
    monthly_duration := monthly_duration
    busiest_month := (maxBy (·.2) monthly_counts).map (·.1)
    avg_daily :=
      if daily_counts = [] then 0
      else pyRound1 ((total_calls : ℚ) / (daily_counts.length : ℚ))
    quiet_days := total_days - (daily_counts.length : ℤ)
    unique_contacts := (contact_stats all_calls).length
    first_call := all_calls.head?
    biggest_fans := (sortDescSnd inbound_from).take 5
    longest_streak := maxBy (·.2) (streaks_of all_calls)
    weekday_weekend := (weekday_calls, weekend_calls)
    duration_buckets := (quick_calls, normal_calls, long_calls)
    ghosts := (sortDescSnd (ghosts_of all_calls)).take 5
    avg_callback_time := avg_callback
    personality := personality }

end CallWrapped

/-! Association-list lemma kit. -/

theorem getAssoc_updAssoc_self {K V : Type} [DecidableEq K] (k : K)
    (f : V → V) (d0 : V) (l : List (K × V)) :
    getAssoc k (updAssoc k f d0 l) = some (f ((getAssoc k l).getD d0)) := by
  induction l with
  | nil => simp [updAssoc, getAssoc]
  | cons p rest ih =>
    by_cases h : k = p.1
    · simp [updAssoc, getAssoc, h]
    · simp [updAssoc, getAssoc, h, ih]

theorem getAssoc_updAssoc_ne {K V : Type} [DecidableEq K] {k k' : K}
    (f : V → V) (d0 : V) (l : List (K × V)) (h : k' ≠ k) :
    getAssoc k' (updAssoc k f d0 l) = getAssoc k' l := by
  induction l with
  | nil => simp [updAssoc, getAssoc, h]
  | cons p rest ih =>
    by_cases hk : k = p.1
    · subst hk
      simp [updAssoc, getAssoc, h]
    · by_cases hk' : k' = p.1
      · simp [updAssoc, getAssoc, hk, hk']
      · simp [updAssoc, getAssoc, hk, hk', ih]

theorem getAssoc_setAssoc {K V : Type} [DecidableEq K] (k k' : K) (v : V)
    (l : List (K × V)) :
    getAssoc k' (setAssoc k v l) =
      if k' = k then some v else getAssoc k' l := by
  induction l with
  | nil =>
    by_cases h : k' = k <;> simp [setAssoc, getAssoc, h]
  | cons p rest ih =>
    by_cases hk : k = p.1
    · subst hk
      by_cases h : k' = p.1 <;> simp [setAssoc, getAssoc, h]
    · by_cases h' : k' = p.1
      · subst h'
        simp [setAssoc, getAssoc, hk, Ne.symm hk]
      · simp [setAssoc, getAssoc, hk, h', ih]

theorem getAssoc_mem {K V : Type} [DecidableEq K] {k : K} {v : V}
    {l : List (K × V)} (h : getAssoc k l = some v) : (k, v) ∈ l := by
  induction l with
  | nil => simp [getAssoc] at h
  | cons p rest ih =>
    by_cases hk : k = p.1
    · subst hk
      simp [getAssoc] at h
      simp [← h]
    · simp [getAssoc, hk] at h
      exact List.mem_cons_of_mem _ (ih h)

theorem map_fst_updAssoc {K V : Type} [DecidableEq K] (k : K) (f : V → V)
    (d0 : V) (l : List (K × V)) :
    (updAssoc k f d0 l).map Prod.fst =
      if k ∈ l.map Prod.fst then l.map Prod.fst
      else l.map Prod.fst ++ [k] := by
  induction l with
  | nil => simp [updAssoc]
  | cons p rest ih =>
    by_cases hk : k = p.1
    · simp [updAssoc, hk]
    · simp [updAssoc, hk, ih, Ne.symm hk]
      by_cases hm : k ∈ rest.map Prod.fst <;> simp [hm, hk]

theorem nodup_keys_updAssoc {K V : Type} [DecidableEq K] (k : K)
    (f : V → V) (d0 : V) {l : List (K × V)}
    (h : (l.map Prod.fst).Nodup) :
    ((updAssoc k f d0 l).map Prod.fst).Nodup := by
  rw [map_fst_updAssoc]
  by_cases hm : k ∈ l.map Prod.fst
  · simpa [hm]
  · simpa [hm] using List.Nodup.append h (List.nodup_singleton k)
      (by simpa using hm)

theorem updAssoc_forall_values {K V : Type} [DecidableEq K] (k : K)
    (f : V → V) (d0 : V) {l : List (K × V)} (P : V → Prop)
    (hf : ∀ v, P v → P (f v)) (h0 : P (f d0))
    (hl : ∀ p ∈ l, P p.2) :
    ∀ p ∈ updAssoc k f d0 l, P p.2 := by
  induction l with
  | nil =>
    intro p hp
    simp [updAssoc] at hp
    simp [hp, h0]
  | cons q rest ih =>
    intro p hp
    by_cases hk : k = q.1
    · simp [updAssoc, hk] at hp
      rcases hp with hp | hp
      · subst hp
        exact hf _ (hl q (by simp))
      · exact hl p (List.mem_cons_of_mem _ hp)
    · simp only [updAssoc, if_neg hk, List.mem_cons] at hp
      rcases hp with hp | hp
      · subst hp
        exact hl q (by simp)
      · exact ih (fun p hp => hl p (List.mem_cons_of_mem _ hp)) p hp

namespace CallWrapped

theorem getAssoc_countFold_go {α K : Type} [DecidableEq K]
    (keyOf : α → Option K) (k : K) (l : List α) :
    ∀ acc : List (K × Nat),
      getAssoc k
          (l.foldl (fun acc c =>
            match keyOf c with
            | some k' => updAssoc k' (· + 1) 0 acc
            | none => acc) acc) =
        match getAssoc k acc with
        | some n => some (n + l.countP (fun a => keyOf a = some k))
        | none =>
          if l.countP (fun a => keyOf a = some k) = 0 then none
          else some (l.countP (fun a => keyOf a = some k)) := by
  induction l with
  | nil =>
    intro acc
    cases h : getAssoc k acc <;> simp [h]
  | cons a rest ih =>
    intro acc
    rw [List.foldl_cons, List.countP_cons]
    cases hka : keyOf a with
    | none =>
      simp only [hka]
      have : (decide (keyOf a = some k)) = false := by simp [hka]
      rw [ih acc]
      simp [hka]
    | some k' =>
      by_cases hkk : k' = k
      · subst hkk
        simp only [hka]
        rw [ih (updAssoc k' (· + 1) 0 acc)]
        rw [getAssoc_updAssoc_self]
        have hd : (decide (keyOf a = some k')) = true := by simp [hka]
        cases h : getAssoc k' acc <;> simp [h, hd] <;> omega
      · simp only [hka]
        rw [ih (updAssoc k' (· + 1) 0 acc)]
        rw [getAssoc_updAssoc_ne _ _ _ (Ne.symm hkk)]
        have hd : (decide (keyOf a = some k)) = false := by
          simp [hka, hkk]
        cases h : getAssoc k acc <;> simp [h, hd, hkk]

/-- What a `defaultdict(int)` counting fold holds for one key: nothing
if no element contributed the key, else the number of elements that
did. -/
theorem getAssoc_countFold {α K : Type} [DecidableEq K]
    (keyOf : α → Option K) (k : K) (l : List α) :
    getAssoc k (countFold keyOf l) =
      if l.countP (fun a => keyOf a = some k) = 0 then none
      else some (l.countP (fun a => keyOf a = some k)) := by
  have h := getAssoc_countFold_go keyOf k l []
  simpa [countFold, getAssoc] using h

/-- The counter a counting fold publishes for a key, read with default
0, is exactly the number of elements contributing that key. -/
theorem getAssoc_countFold_getD {α K : Type} [DecidableEq K]
    (keyOf : α → Option K) (k : K) (l : List α) :
    ((getAssoc k (countFold keyOf l)).getD 0) =
      l.countP (fun a => keyOf a = some k) := by
  rw [getAssoc_countFold]
  by_cases h : l.countP (fun a => keyOf a = some k) = 0 <;> simp [h]

theorem getAssoc_h1h2_go (tsj : Int) (name : String) (l : List Call) :
    ∀ acc : List (String × (Nat × Nat)),
      getAssoc name
          (l.foldl (fun acc c =>
            updAssoc c.name
              (fun p =>
                if c.timestamp < tsj then (p.1 + 1, p.2) else (p.1, p.2 + 1))
              (0, 0) acc) acc) =
        match getAssoc name acc with
        | some p =>
          some (p.1 + l.countP (fun c => c.name = name ∧ c.timestamp < tsj),
            p.2 + l.countP (fun c => c.name = name ∧ ¬c.timestamp < tsj))
        | none =>
          if l.countP (fun c => c.name = name ∧ c.timestamp < tsj) +
              l.countP (fun c => c.name = name ∧ ¬c.timestamp < tsj) = 0 then
            none
          else
            some (l.countP (fun c => c.name = name ∧ c.timestamp < tsj),
              l.countP (fun c => c.name = name ∧ ¬c.timestamp < tsj)) := by
  induction l with
  | nil =>
    intro acc
    cases h : getAssoc name acc <;> simp [h]
  | cons a rest ih =>
    intro acc
    rw [List.foldl_cons, List.countP_cons, List.countP_cons]
    by_cases hn : a.name = name
    · subst hn
      rw [ih _, getAssoc_updAssoc_self]
      by_cases ht : a.timestamp < tsj <;>
        cases h : getAssoc a.name acc <;>
          simp [h, ht, Prod.ext_iff] <;> omega
    · rw [ih _, getAssoc_updAssoc_ne _ _ _ (Ne.symm hn)]
      cases h : getAssoc name acc <;> simp [h, hn]

/-- What `contact_h1_h2` holds for one contact: nothing when the
contact has no events, else the pair of its first-half and second-half
event counts. -/
theorem getAssoc_contact_h1_h2 (l : List Call) (tsj : Int) (name : String) :
    getAssoc name (contact_h1_h2 l tsj) =
      if l.countP (fun c => c.name = name ∧ c.timestamp < tsj) +
          l.countP (fun c => c.name = name ∧ ¬c.timestamp < tsj) = 0 then
        none
      else
        some (l.countP (fun c => c.name = name ∧ c.timestamp < tsj),
          l.countP (fun c => c.name = name ∧ ¬c.timestamp < tsj)) := by
  have h := getAssoc_h1h2_go tsj name l []
  simpa [contact_h1_h2, getAssoc] using h

/-- The predicate "outgoing call to this name". -/
def outToName (name : String) (c : Call) : Bool :=
  decide (c.outgoing = true ∧ c.name = name)

theorem getAssoc_call_times_go (name : String) (l : List Call) :
    ∀ acc : List (String × List Int),
      getAssoc name
          (l.foldl (fun acc c =>
            if c.outgoing then updAssoc c.name (· ++ [c.timestamp]) [] acc
            else acc) acc) =
        match getAssoc name acc with
        | some ts =>
          some (ts ++ (l.filter (outToName name)).map (·.timestamp))
        | none =>
          if (l.filter (outToName name)).map (·.timestamp) = [] then none
          else some ((l.filter (outToName name)).map (·.timestamp)) := by
  induction l with
  | nil =>
    intro acc
    cases h : getAssoc name acc <;> simp [h]
  | cons a rest ih =>
    intro acc
    rw [List.foldl_cons]
    by_cases ho : a.outgoing
    · by_cases hn : a.name = name
      · subst hn
        rw [if_pos ho, ih _, getAssoc_updAssoc_self]
        cases h : getAssoc a.name acc <;>
          simp [h, ho, List.filter_cons, outToName]
      · rw [if_pos ho, ih _, getAssoc_updAssoc_ne _ _ _ (Ne.symm hn)]
        cases h : getAssoc name acc <;>
          simp [h, ho, hn, List.filter_cons, outToName]
    · rw [if_neg ho, ih _]
      have hf : outToName name a = false := by
        simp [outToName, ho]
      cases h : getAssoc name acc <;> simp [h, List.filter_cons, hf]

/-- The outgoing-call-times dict, read with default `[]`, lists exactly
the timestamps of the outgoing calls to that name, in order. -/
theorem call_times_to_getD (l : List Call) (name : String) :
    (getAssoc name (call_times_to l)).getD [] =
      (l.filter (outToName name)).map (·.timestamp) := by
  have h := getAssoc_call_times_go name l []
  simp only [call_times_to]
  rw [show (getAssoc name ([] : List (String × List Int))) = none from rfl]
    at h
  rw [h]
  by_cases hc : (l.filter (outToName name)).map (·.timestamp) = []
    <;> simp [hc]

/-- The `later_calls` list spelled out: the timestamps of outgoing calls to the
name strictly after `t`. -/
theorem later_calls_eq (l : List Call) (name : String) (t : Int) :
    later_calls l name t =
      ((l.filter (outToName name)).map (·.timestamp)).filter
        fun ts => t < ts := by
  rw [later_calls, call_times_to_getD]

/-- No outgoing call to the name ever comes strictly after `t` exactly
when `later_calls` is empty. -/
theorem later_calls_eq_nil_iff (l : List Call) (name : String) (t : Int) :
    later_calls l name t = [] ↔
      ∀ c ∈ l, c.outgoing → c.name = name → ¬t < c.timestamp := by
  rw [later_calls_eq]
  simp only [List.filter_eq_nil_iff, List.mem_map, List.mem_filter,
    decide_eq_true_eq, outToName]
  constructor
  · intro h c hc ho hn
    exact h c.timestamp ⟨c, by simp [hc, ho, hn]⟩
  · rintro h ts ⟨c, hc, rfl⟩
    exact h c hc.1 hc.2.1 hc.2.2

theorem foldl_opt_append {α β : Type} (g : α → Option β) (l : List α) :
    ∀ acc : List β,
      l.foldl (fun acc a => (g a).elim acc (fun x => acc ++ [x])) acc
        = acc ++ l.filterMap g := by
  induction l with
  | nil => intro acc; simp
  | cons a rest ih =>
    intro acc
    rw [List.foldl_cons]
    cases h : g a <;> simp [h, ih, List.filterMap_cons]

theorem length_filterMap_eq_countP {α β : Type} (f : α → Option β)
    (l : List α) :
    (l.filterMap f).length = l.countP fun a => (f a).isSome := by
  induction l with
  | nil => simp
  | cons a rest ih =>
    rw [List.filterMap_cons, List.countP_cons]
    cases h : f a <;> simp [h, ih]

theorem best_name_fold_mem (rest : List String) :
    ∀ n : String,
      (rest.foldl (fun a m => if a.length < m.length then m else a) n) = n ∨
        (rest.foldl (fun a m => if a.length < m.length then m else a) n)
          ∈ rest := by
  induction rest with
  | nil => intro n; simp
  | cons m rest ih =>
    intro n
    rw [List.foldl_cons]
    rcases ih (if n.length < m.length then m else n) with h | h
    · rw [h]
      by_cases hl : n.length < m.length <;> simp [hl]
    · right
      exact List.mem_cons_of_mem _ h

theorem best_name_fold_le (rest : List String) :
    ∀ n : String,
      n.length ≤
          (rest.foldl (fun a m => if a.length < m.length then m else a)
            n).length ∧
        ∀ m ∈ rest,
          m.length ≤
            (rest.foldl (fun a m => if a.length < m.length then m else a)
              n).length := by
  induction rest with
  | nil => intro n; simp
  | cons m rest ih =>
    intro n
    rw [List.foldl_cons]
    rcases ih (if n.length < m.length then m else n) with ⟨h1, h2⟩
    constructor
    · refine le_trans ?_ h1
      by_cases hl : n.length < m.length <;> simp [hl]
      omega
    · intro m' hm'
      rcases List.mem_cons.mp hm' with rfl | hm'
      · refine le_trans ?_ h1
        by_cases hl : n.length < m'.length <;> simp [hl]
        omega
      · exact h2 m' hm'

/-- Python `max(names, key=len)` picks a member of maximal length. -/
theorem best_name_spec (names : List String) (h : names ≠ []) :
    best_name names ∈ names ∧
      ∀ m ∈ names, m.length ≤ (best_name names).length := by
  cases names with
  | nil => exact absurd rfl h
  | cons n rest =>
    constructor
    · rcases best_name_fold_mem rest n with h1 | h1
      · rw [best_name, h1]; simp
      · exact List.mem_cons_of_mem _ h1
    · intro m hm
      rcases List.mem_cons.mp hm with rfl | hm
      · exact (best_name_fold_le rest m).1
      · exact (best_name_fold_le rest n).2 m hm

theorem phone_stats_go_nodup (l : List Call) :
    ∀ acc : List (String × PStats), (acc.map Prod.fst).Nodup →
      ((l.foldl (fun acc c =>
          updAssoc (phoneKeyOf c) (bumpPStats c) emptyPStats acc) acc).map
        Prod.fst).Nodup := by
  induction l with
  | nil => intro acc h; simpa
  | cons a rest ih =>
    intro acc h
    rw [List.foldl_cons]
    exact ih _ (nodup_keys_updAssoc _ _ _ h)

/-- The keys of the `phone_stats` dict are distinct. -/
theorem phone_stats_nodup (l : List Call) :
    ((phone_stats l).map Prod.fst).Nodup :=
  phone_stats_go_nodup l [] (by simp)

theorem phone_stats_go_names_ne_nil (l : List Call) :
    ∀ acc : List (String × PStats), (∀ p ∈ acc, p.2.names ≠ []) →
      ∀ p ∈ l.foldl (fun acc c =>
          updAssoc (phoneKeyOf c) (bumpPStats c) emptyPStats acc) acc,
        p.2.names ≠ [] := by
  induction l with
  | nil =>
    intro acc h
    simpa using fun a b hab => h (a, b) hab
  | cons a rest ih =>
    intro acc h
    rw [List.foldl_cons]
    refine ih _ ?_
    refine updAssoc_forall_values _ _ _ (fun v : PStats => v.names ≠ []) ?_ ?_ h
    · intro v hv
      simp only [bumpPStats, addSet]
      by_cases hm : a.name ∈ v.names <;> simp [hm, hv]
    · simp only [bumpPStats, addSet, emptyPStats]
      simp

/-- Every profile in `phone_stats` has seen at least one name. -/
theorem phone_stats_names_ne_nil (l : List Call) :
    ∀ p ∈ phone_stats l, p.2.names ≠ [] :=
  phone_stats_go_names_ne_nil l [] (by simp)

theorem getAssoc_contact_stats_skip (n : String)
    (L : List (String × PStats)) (h : ∀ p ∈ L, best_name p.2.names ≠ n) :
    ∀ acc0 : List (String × CStats),
      getAssoc n
          (L.foldl
            (fun acc p => setAssoc (best_name p.2.names) (toCStats p.2) acc)
            acc0)
        = getAssoc n acc0 := by
  induction L with
  | nil => intro acc0; simp
  | cons a rest ih =>
    intro acc0
    rw [List.foldl_cons]
    rw [ih (fun p hp => h p (List.mem_cons_of_mem _ hp)) _]
    rw [getAssoc_setAssoc]
    exact if_neg fun he => h a (by simp) he.symm

/-- A concrete phone-platform call, for example inputs. -/
def exCall (name : String) (ts : Int) (outg ans : Bool) (dur : ℚ)
    (phone : Option String) : Call :=
  ⟨name, phone, dur, ts, outg, ans, "Phone", false⟩

/-- Three calls on two distinct phone keys that carry the same display
name: the first key aggregates two events, the second one. -/
def c4calls : List Call :=
  [exCall "Alice Smith" 100 true true 0 (some "4155550001"),
    exCall "Alice Smith" 150 true true 0 (some "4155550001"),
    exCall "Alice Smith" 200 true true 0 (some "4155550002")]

/-- Two name variants of one person on a single phone key. -/
def c4wcalls : List Call :=
  [exCall "Al" 100 true true 0 (some "4155550001"),
    exCall "Alice Smith" 200 true true 0 (some "4155550001")]

/-- The `phone_stats` profile of the key `"4155550001"` in
`c4wcalls`. -/
def c4wps : PStats :=
  ⟨2, 0, 2, 0, 2, 0, ["Phone"], ["Al", "Alice Smith"]⟩

/-- C4 (amended): for a canonical phone key whose longest seen name
variant is claimed by no other key, the merged output publishes that
key's aggregate profile (all counts and durations) under that longest
variant; `best_name` is a member of the seen variants of maximal
length.  (As stated the claim is false: when two keys share their
longest variant, the later key's profile silently overwrites the
earlier one's, see the counterexample.) -/
theorem c4_merge_longest_name (all_calls : List Call) (k : String)
    (s : PStats) (hk : (k, s) ∈ phone_stats all_calls)
    (huniq : ∀ p ∈ phone_stats all_calls, p.1 ≠ k →
      best_name p.2.names ≠ best_name s.names) :
    getAssoc (best_name s.names) (contact_stats all_calls)
        = some (toCStats s) ∧
      best_name s.names ∈ s.names ∧
      ∀ m ∈ s.names, m.length ≤ (best_name s.names).length := by
  have hnames : s.names ≠ [] := phone_stats_names_ne_nil all_calls (k, s) hk
  have hbn := best_name_spec s.names hnames
  refine ⟨?_, hbn.1, hbn.2⟩
  obtain ⟨L1, L2, hL⟩ := List.append_of_mem hk
  have hnodup := phone_stats_nodup all_calls
  rw [hL] at hnodup
  have hknotin : k ∉ L2.map Prod.fst := by
    simp only [List.map_append, List.map_cons] at hnodup
    have h2 := (List.nodup_append.mp hnodup).2.1
    exact (List.nodup_cons.mp h2).1
  have hskip : ∀ p ∈ L2, best_name p.2.names ≠ best_name s.names := by
    intro p hp
    refine huniq p ?_ ?_
    · rw [hL]
      exact List.mem_append_right _ (List.mem_cons_of_mem _ hp)
    · intro hpk
      refine hknotin ?_
      rw [← hpk]
      exact List.mem_map_of_mem Prod.fst hp
  simp only [contact_stats]
  rw [hL, List.foldl_append, List.foldl_cons]
  rw [getAssoc_contact_stats_skip _ L2 hskip]
  rw [getAssoc_setAssoc]
  simp

/-- C4 counterexample: in `c4calls` the key `"4155550001"` aggregated
two events and its longest name variant is `"Alice Smith"`, but the
merged output publishes count 1 under that name (the second key's
profile overwrote the first's) — no published profile carries the
key's count of 2 at all. -/
theorem c4_counterexample :
    (getAssoc "4155550001" (phone_stats c4calls)).map (·.count)
        = some 2 ∧
      (getAssoc "4155550001" (phone_stats c4calls)).map
          (fun s => best_name s.names) = some "Alice Smith" ∧
      (getAssoc "Alice Smith" (contact_stats c4calls)).map (·.count)
          = some 1 ∧
      ∀ p ∈ contact_stats c4calls, p.2.count ≠ 2 := by
  refine ⟨by decide, by decide, by decide, by decide⟩

/-- C4 witness: the amended theorem applied to the concrete run
`c4wcalls`, where the key `"4155550001"` saw the variants
`["Al", "Alice Smith"]`. -/
theorem c4_witness :
    getAssoc (best_name c4wps.names) (contact_stats c4wcalls)
        = some (toCStats c4wps) ∧
      best_name c4wps.names ∈ c4wps.names ∧
      ∀ m ∈ c4wps.names, m.length ≤ (best_name c4wps.names).length :=
  c4_merge_longest_name c4wcalls "4155550001" c4wps
    (by simp +decide [phone_stats, c4wcalls, exCall, updAssoc, phoneKeyOf,
      digitsOf, lastN, bumpPStats, emptyPStats, addSet, c4wps])
    (by simp +decide [phone_stats, c4wcalls, exCall, updAssoc, phoneKeyOf,
      digitsOf, lastN, bumpPStats, emptyPStats, addSet, c4wps])

/-- C7 counterexample: for the 5-digit phone identifier `"12345"` the
key derivation still emits the full digit string as a key, so
"normalization emits no phone key when L < 7" is false as stated. -/
theorem c7_counterexample :
    (digitsOf "12345").length < 7 ∧ digitsOf "12345" ≠ "" ∧
      extract_contact_keys "12345" = ["12345"] ∧
      extract_contact_keys "12345" ≠ [] := by
  refine ⟨by decide, by decide, by decide, by decide⟩

/-- C7 (amended): for a phone-like identifier with digit string of
length L, key derivation emits the last-10-digit suffix when L ≥ 10 and
the last-7-digit suffix when L ≥ 7; when L < 7 it emits no suffix key,
but still emits the full digit string as the only key (and no key at
all only when there are no digits); normalizing
`"+1 (415) 555-2671"` yields keys including `"4155552671"` and
`"5552671"`. -/
theorem c7_normalizer_keys (phone : String) :
    (10 ≤ (digitsOf phone).length →
        lastN 10 (digitsOf phone) ∈ extract_contact_keys phone) ∧
      (7 ≤ (digitsOf phone).length →
        lastN 7 (digitsOf phone) ∈ extract_contact_keys phone) ∧
      ((digitsOf phone).length < 7 → digitsOf phone ≠ "" →
        extract_contact_keys phone = [digitsOf phone]) ∧
      (digitsOf phone = "" → extract_contact_keys phone = []) ∧
      "4155552671" ∈ extract_contact_keys "+1 (415) 555-2671" ∧
      "5552671" ∈ extract_contact_keys "+1 (415) 555-2671" := by
  have hlen : ∀ h : digitsOf phone = "", (digitsOf phone).length = 0 := by
    intro h; rw [h]; rfl
  refine ⟨?_, ?_, ?_, ?_, by decide, by decide⟩
  · intro h10
    have hne : digitsOf phone ≠ "" := by
      intro he; rw [hlen he] at h10; omega
    have h7 : 7 ≤ (digitsOf phone).length := by omega
    simp only [extract_contact_keys, if_neg hne]
    simp [h10, h7]
  · intro h7
    have hne : digitsOf phone ≠ "" := by
      intro he; rw [hlen he] at h7; omega
    simp only [extract_contact_keys, if_neg hne]
    by_cases h10 : 10 ≤ (digitsOf phone).length <;> simp [h10, h7]
  · intro h7 hne
    have h10 : ¬10 ≤ (digitsOf phone).length := by omega
    have h7n : ¬7 ≤ (digitsOf phone).length := by omega
    have h11 : ¬((digitsOf phone).length = 11 ∧
        startsWith1 '1' (digitsOf phone)) := by
      rintro ⟨h, _⟩; omega
    simp only [extract_contact_keys, if_neg hne]
    simp [h10, h7n, h11]
  · intro he
    simp [extract_contact_keys, he]

/-- C7 witness: the amended theorem applied to `"+1 (415) 555-2671"`
(11 digits) and to the short identifier `"12345"`. -/
theorem c7_witness :
    lastN 10 (digitsOf "+1 (415) 555-2671")
        ∈ extract_contact_keys "+1 (415) 555-2671" ∧
      lastN 7 (digitsOf "+1 (415) 555-2671")
        ∈ extract_contact_keys "+1 (415) 555-2671" ∧
      extract_contact_keys "12345" = [digitsOf "12345"] :=
  ⟨(c7_normalizer_keys "+1 (415) 555-2671").1 (by decide),
    (c7_normalizer_keys "+1 (415) 555-2671").2.1 (by decide),
    (c7_normalizer_keys "12345").2.2.1 (by decide) (by decide)⟩

/-- C1 (amended): on zero input events the engine returns a well-formed
report — every ranked list empty, every optional selection null or its
stated default (`peak_hour` 12, `peak_day` "Unknown", null busiest
month), zero-valued stats — and, the computation being total, no
exception; but the behavioral classification is the rule label
"THE POPULAR ONE" (the `outgoing_ratio < 0.3` rule fires on
`0 / max(0,1) = 0`), not the fallback default
"THE BALANCED CALLER". -/
theorem c1_empty_report (ts_start ts_end ts_jun now : Int) :
    (analyze_calls [] [] ts_start ts_end ts_jun now).stats
        = ⟨0, 0, 0, 0, 0, 0⟩ ∧
      (analyze_calls [] [] ts_start ts_end ts_jun now).platforms = [] ∧
      (analyze_calls [] [] ts_start ts_end ts_jun now).video_voice = (0, 0) ∧
      (analyze_calls [] [] ts_start ts_end ts_jun now).top_count = [] ∧
      (analyze_calls [] [] ts_start ts_end ts_jun now).top_duration = [] ∧
      (analyze_calls [] [] ts_start ts_end ts_jun now).longest_call = none ∧
      (analyze_calls [] [] ts_start ts_end ts_jun now).peak_hour = 12 ∧
      (analyze_calls [] [] ts_start ts_end ts_jun now).peak_day
        = "Unknown" ∧
      (analyze_calls [] [] ts_start ts_end ts_jun now).night_owls = [] ∧
      (analyze_calls [] [] ts_start ts_end ts_jun now).early_birds = [] ∧
      (analyze_calls [] [] ts_start ts_end ts_jun now).missed_kings = [] ∧
      (analyze_calls [] [] ts_start ts_end ts_jun now).avoiders = [] ∧
      (analyze_calls [] [] ts_start ts_end ts_jun now).speed_dialers = [] ∧
      (analyze_calls [] [] ts_start ts_end ts_jun now).marathon_talkers
        = [] ∧
      (analyze_calls [] [] ts_start ts_end ts_jun now).daily_counts = [] ∧
      (analyze_calls [] [] ts_start ts_end ts_jun now).busiest_day = none ∧
      (analyze_calls [] [] ts_start ts_end ts_jun now).h1_h2 = (0, 0) ∧
      (analyze_calls [] [] ts_start ts_end ts_jun now).heating_up = [] ∧
      (analyze_calls [] [] ts_start ts_end ts_jun now).cooling_down = [] ∧
      (analyze_calls [] [] ts_start ts_end ts_jun now).monthly_counts
        = [] ∧
      (analyze_calls [] [] ts_start ts_end ts_jun now).busiest_month
        = none ∧
      (analyze_calls [] [] ts_start ts_end ts_jun now).avg_daily = 0 ∧
      (analyze_calls [] [] ts_start ts_end ts_jun now).unique_contacts
        = 0 ∧
      (analyze_calls [] [] ts_start ts_end ts_jun now).first_call = none ∧
      (analyze_calls [] [] ts_start ts_end ts_jun now).biggest_fans = [] ∧
      (analyze_calls [] [] ts_start ts_end ts_jun now).longest_streak
        = none ∧
      (analyze_calls [] [] ts_start ts_end ts_jun now).weekday_weekend
        = (0, 0) ∧
      (analyze_calls [] [] ts_start ts_end ts_jun now).duration_buckets
        = (0, 0, 0) ∧
      (analyze_calls [] [] ts_start ts_end ts_jun now).ghosts = [] ∧
      (analyze_calls [] [] ts_start ts_end ts_jun now).avg_callback_time
        = none ∧
      (analyze_calls [] [] ts_start ts_end ts_jun now).personality
        = ("THE POPULAR ONE", "Everyone wants to talk to you") :=
  ⟨rfl, rfl, rfl, rfl, rfl, rfl, rfl, rfl, rfl, rfl, rfl, rfl, rfl, rfl,
    rfl, rfl, rfl, rfl, rfl, rfl, rfl, rfl, rfl, rfl, rfl, rfl, rfl, rfl,
    rfl, rfl, by
      simp only [analyze_calls]
      norm_num [show sortCalls ([] : List Call) = [] from rfl, countFold,
        callback_times, responsiveCond, maxBy]⟩

/-- C1 counterexample: on zero events the classification is
"THE POPULAR ONE", not the default label "THE BALANCED CALLER" the
claim requires. -/
theorem c1_counterexample :
    (analyze_calls [] [] 0 864000 432000 1728000).personality
        = ("THE POPULAR ONE", "Everyone wants to talk to you") ∧
      (analyze_calls [] [] 0 864000 432000 1728000).personality
        ≠ ("THE BALANCED CALLER",
          "A healthy relationship with your phone") := by
  have h : (analyze_calls [] [] 0 864000 432000 1728000).personality
      = ("THE POPULAR ONE", "Everyone wants to talk to you") := by
    simp only [analyze_calls]
    norm_num [show sortCalls ([] : List Call) = [] from rfl, countFold,
      callback_times, responsiveCond, maxBy]
  refine ⟨h, ?_⟩
  rw [h]
  decide

/-- A phone-history row whose address is a 6-digit short code, so that
identity resolution yields null. -/
def c2row : PhoneRow :=
  ⟨some "911911", some 60, 100, some 0, some 0, some 1⟩

/-- C2 counterexample: a raw event whose resolution yields null (a
short code) is dropped by the extraction loop, so it is not counted in
the platform-wide total call count (the claim requires total = 1
here). -/
theorem c2_counterexample :
    get_name (some "911911") [] = none ∧
      analyze_phone_calls [c2row] [] = [] ∧
      (analyze_calls (analyze_phone_calls [c2row] []) [] 0 864000 432000
          1728000).stats.total = 0 := by
  refine ⟨by decide, by decide, by decide⟩

/-- C2 (amended): a raw event whose identity resolution yields null is
excluded entirely: the total call count equals the number of rows that
resolved to a name, and every event that reaches aggregation carries a
resolved name — so null-resolving events contribute neither to
platform-wide totals nor to any named per-contact profile. -/
theorem c2_null_resolution_dropped (rows : List PhoneRow)
    (contacts : List (String × String)) (ts_start ts_end ts_jun now : Int) :
    (analyze_calls (analyze_phone_calls rows contacts) [] ts_start ts_end
          ts_jun now).stats.total
        = rows.countP
          (fun r => (truthyStr (get_name r.address contacts)).isSome) ∧
      ∀ c ∈ analyze_phone_calls rows contacts,
        ∃ r ∈ rows, truthyStr (get_name r.address contacts)
          = some c.name := by
  constructor
  · have h1 : (analyze_calls (analyze_phone_calls rows contacts) []
        ts_start ts_end ts_jun now).stats.total
        = (sortCalls (analyze_phone_calls rows contacts ++ [])).length :=
      rfl
    rw [h1, sortCalls, List.length_insertionSort, List.append_nil,
      analyze_phone_calls, length_filterMap_eq_countP]
    apply List.countP_congr
    intro r _
    cases hg : truthyStr (get_name r.address contacts) <;> simp [hg]
  · intro c hc
    simp only [analyze_phone_calls, List.mem_filterMap] at hc
    obtain ⟨r, hr, hfr⟩ := hc
    refine ⟨r, hr, ?_⟩
    cases hg : truthyStr (get_name r.address contacts) with
    | none => rw [hg] at hfr; simp at hfr
    | some n =>
      rw [hg] at hfr
      simp only [Option.some.injEq] at hfr
      rw [← hfr]

/-- A resolvable phone-history row (the directory below knows its
number). -/
def c2wrow : PhoneRow :=
  ⟨some "4155552671", none, 100, some 1, some 1, some 1⟩

/-- The one-entry directory resolving `c2wrow`. -/
def c2contacts : List (String × String) :=
  [("4155552671", "Alice")]

/-- C2 witness: the amended statement applied to the one-row run built
from `c2wrow`, whose resolution succeeds. -/
theorem c2_witness :
    (analyze_calls (analyze_phone_calls [c2wrow] c2contacts) [] 0 864000
          432000 1728000).stats.total
        = List.countP
          (fun r => (truthyStr (get_name r.address c2contacts)).isSome)
          [c2wrow] ∧
      ∃ r ∈ [c2wrow], truthyStr (get_name r.address c2contacts)
        = some (exCall "Alice" (100 + MAC_EPOCH) true true 0
          (some "4155552671")).name :=
  ⟨(c2_null_resolution_dropped [c2wrow] c2contacts 0 864000 432000
      1728000).1,
    (c2_null_resolution_dropped [c2wrow] c2contacts 0 864000 432000
      1728000).2
      (exCall "Alice" (100 + MAC_EPOCH) true true 0 (some "4155552671"))
      (by decide)⟩

/-- Builds `n` calls to one contact at consecutive timestamps from `base`. -/
def repCalls (name : String) (base : Int) (n : Nat) : List Call :=
  (List.range n).map fun i => exCall name (base + i) true true 0 none

/-- A run with three contacts: "A" with 20 first-half and 35
second-half events, "B" with 10 and 3, "C" with 2 and 10 (midpoint
400). -/
def c5calls : List Call :=
  repCalls "A" 0 20 ++ repCalls "A" 500 35 ++ repCalls "B" 100 10
    ++ repCalls "B" 600 3 ++ repCalls "C" 200 2 ++ repCalls "C" 700 10

theorem trend_classification_aux (all_calls : List Call) (ts_jun : Int)
    (name : String) (h1 h2 : Nat)
    (hget : getAssoc name (contact_h1_h2 all_calls ts_jun)
      = some (h1, h2)) :
    (h1 = all_calls.countP
        (fun c => c.name = name ∧ c.timestamp < ts_jun) ∧
      h2 = all_calls.countP
        (fun c => c.name = name ∧ ¬c.timestamp < ts_jun)) ∧
      ((name, h1, h2) ∈ heating_up all_calls ts_jun ↔
        3 ≤ h1 ∧ (h1 : ℚ) * (3 / 2) < (h2 : ℚ)) ∧
      ((name, h1, h2) ∈ cooling_down all_calls ts_jun ↔
        5 ≤ h1 ∧ (h2 : ℚ) < (h1 : ℚ) * (1 / 2)) ∧
      ¬((name, h1, h2) ∈ heating_up all_calls ts_jun ∧
        (name, h1, h2) ∈ cooling_down all_calls ts_jun) := by
  have hmem : (name, (h1, h2)) ∈ contact_h1_h2 all_calls ts_jun :=
    getAssoc_mem hget
  have hcounts : h1 = all_calls.countP
      (fun c => c.name = name ∧ c.timestamp < ts_jun) ∧
      h2 = all_calls.countP
        (fun c => c.name = name ∧ ¬c.timestamp < ts_jun) := by
    rw [getAssoc_contact_h1_h2] at hget
    by_cases hz : all_calls.countP
          (fun c => c.name = name ∧ c.timestamp < ts_jun) +
        all_calls.countP
          (fun c => c.name = name ∧ ¬c.timestamp < ts_jun) = 0
    · rw [if_pos hz] at hget
      exact absurd hget (by simp)
    · rw [if_neg hz] at hget
      simp only [Option.some.injEq, Prod.mk.injEq] at hget
      exact ⟨hget.1.symm, hget.2.symm⟩
  have hheat : (name, h1, h2) ∈ heating_up all_calls ts_jun ↔
      3 ≤ h1 ∧ (h1 : ℚ) * (3 / 2) < (h2 : ℚ) := by
    rw [heating_up, List.mem_insertionSort, List.mem_filterMap]
    constructor
    · rintro ⟨p, _, hgp⟩
      by_cases hcond : p.2.1 ≥ 3 ∧ (p.2.2 : ℚ) > (p.2.1 : ℚ) * (3 / 2)
      · rw [if_pos hcond] at hgp
        simp only [Option.some.injEq, Prod.mk.injEq] at hgp
        obtain ⟨-, hp1, hp2⟩ := hgp
        rw [← hp1, ← hp2]
        exact hcond
      · rw [if_neg hcond] at hgp
        exact absurd hgp (by simp)
    · intro hcond
      exact ⟨(name, (h1, h2)), hmem, if_pos hcond⟩
  have hcool : (name, h1, h2) ∈ cooling_down all_calls ts_jun ↔
      5 ≤ h1 ∧ (h2 : ℚ) < (h1 : ℚ) * (1 / 2) := by
    rw [cooling_down, List.mem_insertionSort, List.mem_filterMap]
    constructor
    · rintro ⟨p, _, hgp⟩
      by_cases hcond : p.2.1 ≥ 5 ∧ (p.2.2 : ℚ) < (p.2.1 : ℚ) * (1 / 2)
      · rw [if_pos hcond] at hgp
        simp only [Option.some.injEq, Prod.mk.injEq] at hgp
        obtain ⟨-, hp1, hp2⟩ := hgp
        rw [← hp1, ← hp2]
        exact hcond
      · rw [if_neg hcond] at hgp
        exact absurd hgp (by simp)
    · intro hcond
      exact ⟨(name, (h1, h2)), hmem, if_pos hcond⟩
  refine ⟨hcounts, hheat, hcool, ?_⟩
  rintro ⟨hh, hc⟩
  obtain ⟨hh3, hhgt⟩ := hheat.mp hh
  obtain ⟨-, hclt⟩ := hcool.mp hc
  have h3q : (3 : ℚ) ≤ (h1 : ℚ) := by exact_mod_cast hh3
  linarith

/-- C5: a contact with first-half count `h1` and second-half count `h2`
is classified heating up exactly when `h1 >= 3` and `h2 > h1 * 1.5`,
cooling down exactly when `h1 >= 5` and `h2 < h1 * 0.5`, and never
both; concretely, `(h1, h2) = (20, 35)` is heating with delta 15,
`(10, 3)` is cooling with delta 7 and `(2, 10)` is in neither list. -/
theorem c5_trend_classification :
    (∀ (all_calls : List Call) (ts_jun : Int) (name : String)
        (h1 h2 : Nat),
      getAssoc name (contact_h1_h2 all_calls ts_jun) = some (h1, h2) →
        (h1 = all_calls.countP
            (fun c => c.name = name ∧ c.timestamp < ts_jun) ∧
          h2 = all_calls.countP
            (fun c => c.name = name ∧ ¬c.timestamp < ts_jun)) ∧
          ((name, h1, h2) ∈ heating_up all_calls ts_jun ↔
            3 ≤ h1 ∧ (h1 : ℚ) * (3 / 2) < (h2 : ℚ)) ∧
          ((name, h1, h2) ∈ cooling_down all_calls ts_jun ↔
            5 ≤ h1 ∧ (h2 : ℚ) < (h1 : ℚ) * (1 / 2)) ∧
          ¬((name, h1, h2) ∈ heating_up all_calls ts_jun ∧
            (name, h1, h2) ∈ cooling_down all_calls ts_jun)) ∧
      ("A", 20, 35) ∈ heating_up c5calls 400 ∧ 35 - 20 = 15 ∧
      ("B", 10, 3) ∈ cooling_down c5calls 400 ∧ 10 - 3 = 7 ∧
      ("C", 2, 10) ∉ heating_up c5calls 400 ∧
      ("C", 2, 10) ∉ cooling_down c5calls 400 := by
  have hA : getAssoc "A" (contact_h1_h2 c5calls 400) = some (20, 35) := by
    decide
  have hB : getAssoc "B" (contact_h1_h2 c5calls 400) = some (10, 3) := by
    decide
  have hC : getAssoc "C" (contact_h1_h2 c5calls 400) = some (2, 10) := by
    decide
  refine ⟨trend_classification_aux, ?_, by decide, ?_, by decide, ?_, ?_⟩
  · exact (trend_classification_aux c5calls 400 "A" 20 35 hA).2.1.mpr
      (by norm_num)
  · exact (trend_classification_aux c5calls 400 "B" 10 3 hB).2.2.1.mpr
      (by norm_num)
  · intro hmem
    have h := (trend_classification_aux c5calls 400 "C" 2 10 hC).2.1.mp
      hmem
    omega
  · intro hmem
    have h := (trend_classification_aux c5calls 400 "C" 2 10 hC).2.2.1.mp
      hmem
    have h5 := h.1
    omega

/-- C5 witness: the classification equivalence instantiated on the
concrete run `c5calls` for contact "A". -/
theorem c5_witness :
    ("A", 20, 35) ∈ heating_up c5calls 400 ↔
      3 ≤ 20 ∧ ((20 : ℕ) : ℚ) * (3 / 2) < ((35 : ℕ) : ℚ) :=
  (c5_trend_classification.1 c5calls 400 "A" 20 35 (by decide)).2.1

theorem listMin_cons_go (L : List Int) :
    ∀ m : Int,
      L.foldl (fun acc t =>
        match acc with
        | none => some t
        | some m => some (min m t)) (some m) = some (L.foldl min m) := by
  induction L with
  | nil => intro m; simp
  | cons t rest ih => intro m; simp [ih]

theorem foldl_min_le (L : List Int) :
    ∀ m : Int, L.foldl min m ≤ m ∧ ∀ t ∈ L, L.foldl min m ≤ t := by
  induction L with
  | nil => intro m; simp
  | cons t rest ih =>
    intro m
    rcases ih (min m t) with ⟨h1, h2⟩
    refine ⟨le_trans h1 (min_le_left m t), ?_⟩
    intro t' ht'
    rcases List.mem_cons.mp ht' with rfl | ht'
    · exact le_trans h1 (min_le_right m t')
    · exact h2 t' ht'

theorem foldl_min_mem (L : List Int) :
    ∀ m : Int, L.foldl min m = m ∨ L.foldl min m ∈ L := by
  induction L with
  | nil => intro m; simp
  | cons t rest ih =>
    intro m
    rw [List.foldl_cons]
    rcases ih (min m t) with h | h
    · rw [h]
      rcases min_choice m t with h' | h'
      · rw [h']; left; rfl
      · rw [h']; right; simp
    · right; exact List.mem_cons_of_mem _ h

/-- Minimum of a nonempty list is a member and a lower bound; on the
empty list there is no minimum. -/
theorem listMin_spec (L : List Int) :
    match listMin L with
    | some m => m ∈ L ∧ ∀ t ∈ L, m ≤ t
    | none => L = [] := by
  cases L with
  | nil => simp [listMin]
  | cons t rest =>
    have h : listMin (t :: rest) = some (rest.foldl min t) := by
      rw [listMin, List.foldl_cons]
      exact listMin_cons_go rest t
    rw [h]
    constructor
    · rcases foldl_min_mem rest t with h' | h'
      · rw [h']; simp
      · exact List.mem_cons_of_mem _ h'
    · intro t' ht'
      rcases List.mem_cons.mp ht' with rfl | ht'
      · exact (foldl_min_le rest t').1
      · exact (foldl_min_le rest t).2 t' ht'

/-- What the ghost counters hold: for each contact, the number of its
inbound unanswered events with no strictly later outgoing call to it. -/
theorem ghosts_of_getD (l : List Call) (X : String) :
    (getAssoc X (ghosts_of l)).getD 0 =
      l.countP (fun c => c.outgoing = false ∧ c.answered = false ∧
        c.name = X ∧ ∀ c' ∈ l, c'.outgoing = true → c'.name = X →
          ¬c.timestamp < c'.timestamp) := by
  rw [ghosts_of, getAssoc_countFold_getD]
  apply List.countP_congr
  intro c _
  simp only [decide_eq_true_eq]
  constructor
  · intro h
    by_cases hcond : c.outgoing = false ∧ c.answered = false ∧
        later_calls l c.name c.timestamp = []
    · rw [if_pos hcond] at h
      simp only [Option.some.injEq] at h
      subst h
      obtain ⟨h1, h2, h3⟩ := hcond
      exact ⟨h1, h2, rfl,
        (later_calls_eq_nil_iff l c.name c.timestamp).mp h3⟩
    · rw [if_neg hcond] at h
      exact absurd h (by simp)
  · rintro ⟨h1, h2, h3, h4⟩
    subst h3
    rw [if_pos ⟨h1, h2,
      (later_calls_eq_nil_iff l c.name c.timestamp).mpr h4⟩]

/-- The callback-latency list is exactly the per-missed-event
`callbackOpt` records, in event order. -/
theorem callback_times_eq (l : List Call) :
    callback_times l = l.filterMap (callbackOpt l) := by
  rw [callback_times]
  have hbody : (fun (acc : List ℚ) (c : Call) =>
      if c.outgoing = false ∧ c.answered = false then
        match listMin (later_calls l c.name c.timestamp) with
        | some m =>
          if ((m - c.timestamp : ℤ) : ℚ) / 60 < 1440 then
            acc ++ [((m - c.timestamp : ℤ) : ℚ) / 60]
          else acc
        | none => acc
      else acc) =
      fun (acc : List ℚ) (c : Call) =>
        (callbackOpt l c).elim acc (fun x => acc ++ [x]) := by
    funext acc c
    rw [callbackOpt]
    by_cases h1 : c.outgoing = false ∧ c.answered = false
    · rw [if_pos h1, if_pos h1]
      cases hm : listMin (later_calls l c.name c.timestamp) with
      | none => simp
      | some m =>
        by_cases h2 : ((m - c.timestamp : ℤ) : ℚ) / 60 < 1440
        · push_cast at h2 ⊢
          simp [h2]
        · push_cast at h2 ⊢
          simp [h2]
    · rw [if_neg h1, if_neg h1]
      simp
  rw [hbody]
  exact (foldl_opt_append (callbackOpt l) l []).trans
    (List.nil_append _)

/-- A missed inbound call from "X" at `t = 100` answered by an
outgoing call at `t = 700`. -/
def c6calls : List Call :=
  [exCall "X" 100 false false 0 none, exCall "X" 700 true true 60 none]

/-- A missed inbound call from "X" never returned. -/
def c6ghost : List Call :=
  [exCall "X" 100 false false 0 none]

/-- C6: a missed inbound event with no strictly later outgoing call to
the same contact bumps that contact's ghost counter by one (the counter
counts exactly such events); a returned missed event contributes the
minutes to the earliest later outgoing call, kept only when under 24
hours, and the average is over all such (event, callback) pairs; on the
concrete run, the missed call at `t = 100` returned at `t = 700` is not
a ghost and contributes a 10-minute latency (average 10), while with no
return it is a ghost. -/
theorem c6_ghost_callback :
    (∀ (l : List Call) (X : String),
      (getAssoc X (ghosts_of l)).getD 0 =
        l.countP (fun c => c.outgoing = false ∧ c.answered = false ∧
          c.name = X ∧ ∀ c' ∈ l, c'.outgoing = true → c'.name = X →
            ¬c.timestamp < c'.timestamp)) ∧
      (∀ l : List Call, callback_times l = l.filterMap (callbackOpt l)) ∧
      (∀ L : List Int,
        match listMin L with
        | some m => m ∈ L ∧ ∀ t ∈ L, m ≤ t
        | none => L = []) ∧
      (∀ (p w : List Call) (ts0 ts1 tsj now : Int),
        (analyze_calls p w ts0 ts1 tsj now).avg_callback_time =
          if callback_times (sortCalls (p ++ w)) = [] then none
          else
            some (pyRound ((callback_times (sortCalls (p ++ w))).sum /
              ((callback_times (sortCalls (p ++ w))).length : ℚ)))) ∧
      ghosts_of c6calls = [] ∧
      callback_times c6calls = [10] ∧
      (analyze_calls c6calls [] 0 864000 432000 1728000).avg_callback_time
        = some 10 ∧
      ghosts_of c6ghost = [("X", 1)] := by
  have hcb : callback_times c6calls = [10] := by
    rw [callback_times_eq]
    simp only [c6calls, exCall, List.filterMap]
    norm_num [callbackOpt, later_calls, call_times_to, getAssoc, updAssoc,
      listMin]
  refine ⟨ghosts_of_getD, callback_times_eq, listMin_spec,
    fun p w ts0 ts1 tsj now => rfl, by decide, hcb, ?_, by decide⟩
  have h0 : (analyze_calls c6calls [] 0 864000 432000
      1728000).avg_callback_time =
      if callback_times (sortCalls (c6calls ++ [])) = [] then none
      else
        some (pyRound ((callback_times (sortCalls (c6calls ++ []))).sum /
          ((callback_times (sortCalls (c6calls ++ []))).length : ℚ))) :=
    rfl
  rw [h0, show sortCalls (c6calls ++ []) = c6calls from by decide, hcb]
  norm_num [pyRound]

/-- Every event the WhatsApp extractor produces is outgoing, and is
answered exactly when its duration is positive. -/
theorem wa_outgoing (rows : List WARow)
    (wac contacts : List (String × String)) :
    ∀ c ∈ analyze_whatsapp_calls rows wac contacts,
      c.outgoing = true ∧ (c.answered = true ↔ 0 < c.duration) := by
  intro c hc
  simp only [analyze_whatsapp_calls, List.mem_filterMap] at hc
  obtain ⟨r, _, hfr⟩ := hc
  split at hfr
  · exact absurd hfr (by simp)
  · simp only [Option.some.injEq] at hfr
    rw [← hfr]
    refine ⟨rfl, ?_⟩
    simp

/-- C9: WhatsApp events are always outgoing (answered iff positive
duration), so none of them is ever a missed inbound event: adding them
to a run leaves the incoming count, each contact's missed-from count,
each ghost counter and the set of callback pairs counting phone events
only. -/
theorem c9_whatsapp_never_inbound :
    (∀ (rows : List WARow) (wac contacts : List (String × String)),
      ∀ c ∈ analyze_whatsapp_calls rows wac contacts,
        c.outgoing = true ∧ (c.answered = true ↔ 0 < c.duration)) ∧
      ∀ (p : List Call) (rows : List WARow)
        (wac contacts : List (String × String)) (ts0 ts1 tsj now : Int),
        (analyze_calls p (analyze_whatsapp_calls rows wac contacts) ts0
              ts1 tsj now).stats.incoming
            = p.countP (fun c => c.outgoing = false) ∧
          (∀ X, (getAssoc X (missed_from_of (sortCalls (p ++
                  analyze_whatsapp_calls rows wac contacts)))).getD 0
              = p.countP (fun c => c.answered = false ∧
                c.outgoing = false ∧ c.name = X)) ∧
          (∀ X, (getAssoc X (ghosts_of (sortCalls (p ++
                  analyze_whatsapp_calls rows wac contacts)))).getD 0
              = p.countP (fun c => c.outgoing = false ∧
                c.answered = false ∧ c.name = X ∧
                ∀ c' ∈ sortCalls (p ++ analyze_whatsapp_calls rows wac
                    contacts),
                  c'.outgoing = true → c'.name = X →
                    ¬c.timestamp < c'.timestamp)) ∧
          (callback_times (sortCalls (p ++ analyze_whatsapp_calls rows
                wac contacts))).length
            = p.countP (fun c => (callbackOpt (sortCalls (p ++
                analyze_whatsapp_calls rows wac contacts)) c).isSome) := by
  refine ⟨wa_outgoing, ?_⟩
  intro p rows wac contacts ts0 ts1 tsj now
  have hout : ∀ c ∈ analyze_whatsapp_calls rows wac contacts,
      c.outgoing = true :=
    fun c hc => (wa_outgoing rows wac contacts c hc).1
  have hperm :
      (sortCalls (p ++ analyze_whatsapp_calls rows wac contacts)).Perm
        (p ++ analyze_whatsapp_calls rows wac contacts) :=
    List.perm_insertionSort _ _
  have hwalen :
      (analyze_whatsapp_calls rows wac contacts).countP (·.outgoing)
        = (analyze_whatsapp_calls rows wac contacts).length :=
    List.countP_eq_length.mpr hout
  refine ⟨?_, ?_, ?_, ?_⟩
  · have h0 : (analyze_calls p (analyze_whatsapp_calls rows wac contacts)
        ts0 ts1 tsj now).stats.incoming
        = (sortCalls (p ++ analyze_whatsapp_calls rows wac
            contacts)).length
          - (sortCalls (p ++ analyze_whatsapp_calls rows wac
              contacts)).countP (·.outgoing) := rfl
    rw [h0, hperm.length_eq, List.Perm.countP_eq _ hperm,
      List.length_append, List.countP_append, hwalen]
    have hsplit :=
      List.length_eq_countP_add_countP (fun c : Call => c.outgoing) p
    have hcongr : p.countP (fun a => decide ¬a.outgoing = true)
        = p.countP (fun c => c.outgoing = false) :=
      List.countP_congr (fun x _ => by simp)
    have hle := @List.countP_le_length Call (fun c => c.outgoing) p
    omega
  · intro X
    rw [missed_from_of, getAssoc_countFold_getD,
      List.Perm.countP_eq _ hperm, List.countP_append]
    have hwz : (analyze_whatsapp_calls rows wac contacts).countP
        (fun c => decide ((if c.answered = false ∧ c.outgoing = false
          then some c.name else none) = some X)) = 0 := by
      rw [List.countP_eq_zero]
      intro c hc
      rw [if_neg (by simp [hout c hc])]
      simp
    rw [hwz, Nat.add_zero]
    apply List.countP_congr
    intro c _
    simp only [decide_eq_true_eq]
    constructor
    · intro h
      by_cases hcond : c.answered = false ∧ c.outgoing = false
      · rw [if_pos hcond] at h
        simp only [Option.some.injEq] at h
        exact ⟨hcond.1, hcond.2, h⟩
      · rw [if_neg hcond] at h
        exact absurd h (by simp)
    · rintro ⟨h1, h2, h3⟩
      rw [if_pos ⟨h1, h2⟩, h3]
  · intro X
    rw [ghosts_of_getD, List.Perm.countP_eq _ hperm,
      List.countP_append]
    have hwz : (analyze_whatsapp_calls rows wac contacts).countP
        (fun c => decide (c.outgoing = false ∧ c.answered = false ∧
          c.name = X ∧
          ∀ c' ∈ sortCalls (p ++ analyze_whatsapp_calls rows wac
              contacts),
            c'.outgoing = true → c'.name = X →
              ¬c.timestamp < c'.timestamp)) = 0 := by
      rw [List.countP_eq_zero]
      intro c hc
      simp [hout c hc]
    rw [hwz, Nat.add_zero]
  · rw [callback_times_eq, length_filterMap_eq_countP,
      List.Perm.countP_eq _ hperm, List.countP_append]
    have hwz : (analyze_whatsapp_calls rows wac contacts).countP
        (fun c => (callbackOpt (sortCalls (p ++ analyze_whatsapp_calls
          rows wac contacts)) c).isSome) = 0 := by
      rw [List.countP_eq_zero]
      intro c hc
      rw [callbackOpt, if_neg (by simp [hout c hc])]
      simp
    rw [hwz, Nat.add_zero]

/-- A WhatsApp call-event row whose JID the directory resolves. -/
def c9row : WARow :=
  ⟨none, 100, some 0, some "4155552671@s.whatsapp.net"⟩

/-- The event the extractor builds from `c9row`. -/
def c9call : Call :=
  ⟨"Alice", some "4155552671", 0, 100 + MAC_EPOCH, true, false,
    "WhatsApp", false⟩

/-- C9 witness: the invariant applied to the concrete extracted event
of `c9row` (outgoing, unanswered since its duration is 0). -/
theorem c9_witness :
    c9call.outgoing = true ∧ (c9call.answered = true ↔ 0 < c9call.duration) :=
  c9_whatsapp_never_inbound.1 [c9row] [] [("4155552671", "Alice")] c9call
    (by decide)

/-- The report with its only wall-clock-dependent field
(`quiet_days`) blanked. -/
def eraseClock (r : Report) : Report :=
  { r with quiet_days := 0 }

/-- C8 (amended): given the same input snapshot the engine is a pure
deterministic function of the input and the current wall-clock time;
every report field except `quiet_days` is independent of the clock,
and `quiet_days` does read `datetime.now()` (see the
counterexample), so the engine is not a pure function of the input
snapshot alone. -/
theorem c8_clock_dependence (p w : List Call) (ts0 ts1 tsj n1 n2 : Int) :
    eraseClock (analyze_calls p w ts0 ts1 tsj n1)
      = eraseClock (analyze_calls p w ts0 ts1 tsj n2) := rfl

/-- C8 counterexample: the identical empty input snapshot analyzed at
two different wall-clock instants yields different reports (their
`quiet_days` differ), so the engine is not independent of ambient
time. -/
theorem c8_counterexample :
    (analyze_calls [] [] 0 864000 432000 86400).quiet_days = 2 ∧
      (analyze_calls [] [] 0 864000 432000 172800).quiet_days = 3 ∧
      analyze_calls [] [] 0 864000 432000 86400
        ≠ analyze_calls [] [] 0 864000 432000 172800 := by
  refine ⟨by decide, by decide, fun h => ?_⟩
  have h2 := congrArg Report.quiet_days h
  rw [show (analyze_calls [] [] 0 864000 432000 86400).quiet_days = 2 by
      decide,
    show (analyze_calls [] [] 0 864000 432000 172800).quiet_days = 3 by
      decide] at h2
  exact absurd h2 (by decide)

end CallWrapped

/-- C10 counterexample: on the 12-digit identifier `"441234567890"` the
`call_wrapped` normalizer keeps the last 10 digits while the
`combined_wrapped` (and `people_wrapped`) normalizer returns the full
digit string, so the three variants are not the same function. -/
theorem c10_counterexample :
    CallWrapped.normalize_phone "441234567890" = some "1234567890" ∧
      CombinedWrapped.normalize_phone "441234567890"
          = some "441234567890" ∧
      PeopleWrapped.normalize_phone "441234567890" = some "441234567890" ∧
      CallWrapped.normalize_phone "441234567890"
          ≠ CombinedWrapped.normalize_phone "441234567890" := by
  refine ⟨by decide, by decide, by decide, by decide⟩

/-- C10 (amended): the `combined_wrapped` and `people_wrapped`
normalizers are the same function on every input; the `call_wrapped`
normalizer agrees with them on every input whose digit string has
length at most 10 or is an 11-digit string starting with 1, and differs
exactly on the remaining long digit strings (where it truncates to the
last 10 digits and they do not). -/
theorem c10_normalize_agreement :
    (∀ s, PeopleWrapped.normalize_phone s
        = CombinedWrapped.normalize_phone s) ∧
      ∀ s, ((digitsOf s).length ≤ 10 ∨
          ((digitsOf s).length = 11 ∧ startsWith1 '1' (digitsOf s))) →
        CallWrapped.normalize_phone s = CombinedWrapped.normalize_phone s := by
  constructor
  · intro s; rfl
  · intro s hs
    simp only [CallWrapped.normalize_phone, CombinedWrapped.normalize_phone]
    by_cases h0 : s = ""
    · simp [h0]
    · rw [if_neg h0, if_neg h0]
      by_cases hc : (digitsOf s).length = 11 ∧
          startsWith1 '1' (digitsOf s)
      · rw [if_pos hc, if_pos hc]
      · rw [if_neg hc, if_neg hc]
        have hle : (digitsOf s).length ≤ 10 := by
          rcases hs with h | h
          · exact h
          · exact absurd h hc
        have hgt : ¬(digitsOf s).length > 10 := by omega
        rw [if_neg hgt, if_neg hgt]

/-- C10 witness: the amended agreement applied to the plain 10-digit
identifier `"4155552671"`. -/
theorem c10_witness :
    CallWrapped.normalize_phone "4155552671"
        = CombinedWrapped.normalize_phone "4155552671" :=
  c10_normalize_agreement.2 "4155552671" (by decide)

/-- C3 counterexample: `"4155552671"` is phone-like (10 digits), not a
short code and not toll-free, yet with an empty directory both
`call_wrapped.get_name` and `localbrief.resolve_contact` return null
rather than a formatted fallback. -/
theorem c3_counterexample :
    (digitsOf "4155552671").length = 10 ∧
      ¬(5 ≤ (digitsOf "4155552671").length ∧
        (digitsOf "4155552671").length ≤ 6) ∧
      tollSlice (digitsOf "4155552671") ∉ tollFreeCodes ∧
      CallWrapped.get_name (some "4155552671") [] = none ∧
      LocalBrief.resolve_contact (some "4155552671") [] none = none := by
  refine ⟨by decide, by decide, by decide, by decide, by decide⟩

/-- C3 (amended): when no directory tier matches, the phone-call
resolver `get_name` and localbrief's `resolve_contact` return null for
phone-like identifiers; only the WhatsApp resolver
`get_name_whatsapp` falls back to a formatted, grouped rendering of the
number and never returns null. -/
theorem c3_resolver_fallbacks :
    (∀ s contacts, s ≠ "" →
        getAssoc (digitsOf s) contacts = none →
        getAssoc (dropN 1 (digitsOf s)) contacts = none →
        getAssoc (lastN 10 (digitsOf s)) contacts = none →
        getAssoc (lastN 7 (digitsOf s)) contacts = none →
        CallWrapped.get_name (some s) contacts = none) ∧
      (∀ s contacts, s ≠ "" →
        ((pyStrip s).data.contains '@') = false →
        getAssoc (lastN 10 (digitsOf (pyStrip s))) contacts = none →
        getAssoc (lastN 7 (digitsOf (pyStrip s))) contacts = none →
        LocalBrief.resolve_contact (some s) contacts none = none) ∧
      ∀ j contacts, j ≠ "" →
        getAssoc j contacts = none →
        (j.data.contains '@') = true →
        (splitHead '@' j).length = 10 →
        CombinedWrapped.get_name_whatsapp (some j) contacts =
          "(" ++ slice 0 3 (splitHead '@' j) ++ ") "
            ++ slice 3 6 (splitHead '@' j) ++ "-"
            ++ dropN 6 (splitHead '@' j) := by
  refine ⟨?_, ?_, ?_⟩
  · intro s contacts hs h1 h2 h3 h4
    simp only [CallWrapped.get_name, if_neg hs, h1, h2, h3, h4]
    split_ifs <;> simp
  · intro s contacts hs hat h1 h2
    simp only [LocalBrief.resolve_contact, if_neg hs,
      LocalBrief.resolve_contact.resolveDir, hat, h1, h2]
    simp
  · intro j contacts hj hlook hat hlen
    simp only [CombinedWrapped.get_name_whatsapp, if_neg hj, hlook, hat,
      hlen]
    simp

/-- C3 witness: the amended statement applied to the bare number
`"4155552671"` (null from both directory resolvers) and to the JID
`"4155552671@s.whatsapp.net"` (formatted fallback). -/
theorem c3_witness :
    CallWrapped.get_name (some "4155552671") [] = none ∧
      LocalBrief.resolve_contact (some "4155552671") [] none = none ∧
      CombinedWrapped.get_name_whatsapp
          (some "4155552671@s.whatsapp.net") [] =
        "(" ++ slice 0 3 (splitHead '@' "4155552671@s.whatsapp.net")
          ++ ") " ++ slice 3 6 (splitHead '@' "4155552671@s.whatsapp.net")
          ++ "-" ++ dropN 6 (splitHead '@' "4155552671@s.whatsapp.net") :=
  ⟨c3_resolver_fallbacks.1 "4155552671" [] (by decide) (by decide)
      (by decide) (by decide) (by decide),
    c3_resolver_fallbacks.2.1 "4155552671" [] (by decide) (by decide)
      (by decide) (by decide),
    c3_resolver_fallbacks.2.2 "4155552671@s.whatsapp.net" [] (by decide)
      (by decide) (by decide) (by decide)⟩

end Wrap
